import Mathlib

/-!
Verification development for the Hackathon task-management repository.

Part 1 embeds the CLI JSON-variant todo manager
(todo-app-phase-1/src/main.py): the `TodoItem` record, its
dictionary (de)serialization, and the `TodoManager` operations
(add, remove, toggle with recurrence regeneration, update, list,
save, load).  Timestamps produced by `datetime.now().isoformat()`
are threaded as an explicit `now : String` argument.  The JSON file
is modelled by a `FileState` (missing / corrupt / parsed list of
dictionaries) stored in the manager state, together with a count of
writes so that "the file was not rewritten" is observable.

Part 2 embeds the web-variant task routes and services
(Full-Stack Web-phase-2/backend) and Part 3 the in-memory phase-1
`TodoCore`.
-/

namespace Hackathon

/-- `p in ["High", "Medium", "Low"]` — the priority check used both by
`TodoItem.__init__` and `TodoManager._validate_priority`. -/
def validPriority (p : String) : Bool :=
  p == "High" || p == "Medium" || p == "Low"

/-- The fields of a CLI-variant todo item (todo-app-phase-1/src/main.py,
class `TodoItem`). -/
structure TodoItem where
  id : Nat
  title : String
  description : String
  completed : Bool
  priority : String
  category : String
  due_date : String
  recurring_pattern : String
  created_at : String
  updated_at : String
deriving DecidableEq, Repr

/-- `TodoItem.__init__`: normalizes an invalid priority to `"Medium"`;
`created_at or datetime.now().isoformat()` replaces a missing (`None`)
or empty (falsy) `created_at` by the current time; `updated_at` is set
to the current time. -/
def TodoItem.init (now : String) (id : Nat) (title : String)
    (description : String := "") (completed : Bool := false)
    (created_at : Option String := none) (priority : String := "Medium")
    (category : String := "") (due_date : String := "")
    (recurring_pattern : String := "") : TodoItem :=
  { id := id
    title := title
    description := description
    completed := completed
    priority := if validPriority priority then priority else "Medium"
    category := category
    due_date := due_date
    recurring_pattern := recurring_pattern
    created_at :=
      match created_at with
      | none => now
      | some s => if s = "" then now else s
    updated_at := now }

/-- A JSON object for one item, as read back from the storage file.
Every field is optional: `from_dict` accesses `id` and `title` with
brackets (a `KeyError` when absent) and everything else with `.get`. -/
structure TodoDict where
  id : Option Nat
  title : Option String
  description : Option String
  completed : Option Bool
  priority : Option String
  category : Option String
  due_date : Option String
  recurring_pattern : Option String
  created_at : Option String
  updated_at : Option String
deriving DecidableEq, Repr

/-- `TodoItem.to_dict`: every field is written. -/
def TodoItem.to_dict (t : TodoItem) : TodoDict :=
  { id := some t.id
    title := some t.title
    description := some t.description
    completed := some t.completed
    priority := some t.priority
    category := some t.category
    due_date := some t.due_date
    recurring_pattern := some t.recurring_pattern
    created_at := some t.created_at
    updated_at := some t.updated_at }

/-- `TodoItem.from_dict`: `data['id']` and `data['title']` raise
`KeyError` when missing (modelled by `none`); the remaining fields fall
back to defaults via `.get`; after construction `updated_at` is
overwritten with `data.get('updated_at', now)`. -/
def TodoItem.from_dict (now : String) (d : TodoDict) : Option TodoItem :=
  match d.id, d.title with
  | some id, some title =>
      let item := TodoItem.init now id title
        (d.description.getD "") (d.completed.getD false) d.created_at
        (d.priority.getD "Medium") (d.category.getD "")
        (d.due_date.getD "") (d.recurring_pattern.getD "")
      some { item with updated_at := d.updated_at.getD now }
  | _, _ => none

/-- The storage file as seen at load time: absent, unparseable JSON, or
a parsed array of item dictionaries. -/
inductive FileState where
  | missing : FileState
  | corrupt : FileState
  | parsed : List TodoDict → FileState
deriving DecidableEq, Repr

/-- The `TodoManager` state: the in-memory list, the id counter, the
storage-file content, and how many times `save_todos` has run. -/
structure TodoManager where
  todos : List TodoItem
  next_id : Nat
  file : FileState
  writes : Nat
deriving Repr

/-- `TodoManager.save_todos`: rewrites the whole file from `to_dict`. -/
def TodoManager.save_todos (m : TodoManager) : TodoManager :=
  { m with file := FileState.parsed (m.todos.map TodoItem.to_dict)
           writes := m.writes + 1 }

/-- `max(todo.id for todo in todos)` as a fold (all ids are naturals,
so folding `max` from `0` agrees with Python's `max` on a nonempty
list). -/
def maxId (l : List TodoItem) : Nat :=
  l.foldr (fun t acc => max t.id acc) 0

/-- `TodoManager._update_next_id`. -/
def TodoManager.update_next_id (m : TodoManager) : TodoManager :=
  if m.todos.isEmpty then { m with next_id := 1 }
  else { m with next_id := maxId m.todos + 1 }

/-- The comprehension `[TodoItem.from_dict(item) for item in data]`: a
`KeyError` in any element aborts the whole list. -/
def from_dict_list (now : String) : List TodoDict → Option (List TodoItem)
  | [] => some []
  | d :: ds =>
      match TodoItem.from_dict now d, from_dict_list now ds with
      | some t, some ts => some (t :: ts)
      | _, _ => none

/-- `TodoManager.load_todos`: a missing file leaves the state alone; a
JSON parse failure or a `KeyError` from `from_dict` resets to the empty
collection with `next_id = 1`; otherwise the parsed items are installed
and `_update_next_id` runs. -/
def TodoManager.load_todos (now : String) (m : TodoManager) : TodoManager :=
  match m.file with
  | FileState.missing => m
  | FileState.corrupt => { m with todos := [], next_id := 1 }
  | FileState.parsed data =>
      match from_dict_list now data with
      | some items => TodoManager.update_next_id { m with todos := items }
      | none => { m with todos := [], next_id := 1 }

/-- `TodoManager.__init__`: start from the empty collection, load the
file, then `_update_next_id`. -/
def TodoManager.init (now : String) (fs : FileState) : TodoManager :=
  TodoManager.update_next_id
    (TodoManager.load_todos now
      { todos := [], next_id := 1, file := fs, writes := 0 })

/-- `TodoManager._validate_date_format`: the empty string is valid,
otherwise the string must match `^\d{4}-\d{2}-\d{2}$`. -/
def dateShape (s : String) : Bool :=
  match s.toList with
  | [a, b, c, d, h1, e, f, h2, g, h] =>
      a.isDigit && b.isDigit && c.isDigit && d.isDigit && h1 == '-' &&
      e.isDigit && f.isDigit && h2 == '-' && g.isDigit && h.isDigit
  | _ => false

/-- `TodoManager._validate_date_format`. -/
def validate_date_format (s : String) : Bool :=
  s == "" || dateShape s

/-- `TodoManager._validate_recurring_pattern`. -/
def validate_recurring_pattern (p : String) : Bool :=
  p == "" || p == "Daily" || p == "Weekly" || p == "Monthly"

/-- `TodoManager.add_todo`: validate priority, date format and
recurring pattern (in that order, each failure returning `None` with
no state change), then append a fresh item, bump `next_id`, save. -/
def TodoManager.add_todo (now : String) (m : TodoManager) (title : String)
    (description : String := "") (priority : String := "Medium")
    (category : String := "") (due_date : String := "")
    (recurring_pattern : String := "") : Option TodoItem × TodoManager :=
  if !validPriority priority then (none, m)
  else if !validate_date_format due_date then (none, m)
  else if !validate_recurring_pattern recurring_pattern then (none, m)
  else
    let todo := TodoItem.init now m.next_id title description false none
      priority category due_date recurring_pattern
    (some todo,
      TodoManager.save_todos
        { m with todos := m.todos ++ [todo], next_id := m.next_id + 1 })

/-- Delete the first list element with the given id (Python's loop with
`del self.todos[i]; return True`). -/
def removeFirst (l : List TodoItem) (todo_id : Nat) : List TodoItem :=
  match l with
  | [] => []
  | t :: ts => if t.id = todo_id then ts else t :: removeFirst ts todo_id

/-- `TodoManager.remove_todo`: returns `False` and does not save when
no item has the id. -/
def TodoManager.remove_todo (m : TodoManager) (todo_id : Nat) :
    Bool × TodoManager :=
  if m.todos.any (fun t => t.id == todo_id) then
    (true, TodoManager.save_todos { m with todos := removeFirst m.todos todo_id })
  else (false, m)

/-! ### Civil-date arithmetic for recurrence regeneration

`_create_recurring_task` parses the due date with
`datetime.fromisoformat`, adds a `timedelta`, and formats it back with
`strftime('%Y-%m-%d')`.  We embed the `YYYY-MM-DD` fragment of
`fromisoformat` (the only shape that reaches this code for dates
accepted by `_validate_date_format`) over an explicit civil calendar. -/

/-- A proleptic-Gregorian calendar date. -/
structure Date where
  year : Nat
  month : Nat
  day : Nat
deriving DecidableEq, Repr

/-- Gregorian leap-year rule. -/
def isLeap (y : Nat) : Bool :=
  (y % 4 == 0 && y % 100 != 0) || y % 400 == 0

/-- Days in a month. -/
def daysInMonth (y m : Nat) : Nat :=
  if m = 2 then (if isLeap y then 29 else 28)
  else if m = 4 || m = 6 || m = 9 || m = 11 then 30
  else 31

/-- A date `datetime` accepts: year 1–9999, valid month and day. -/
def dateValid (d : Date) : Bool :=
  1 ≤ d.year && d.year ≤ 9999 && 1 ≤ d.month && d.month ≤ 12 &&
  1 ≤ d.day && d.day ≤ daysInMonth d.year d.month

/-- The next calendar day. -/
def nextDay (d : Date) : Date :=
  if d.day < daysInMonth d.year d.month then { d with day := d.day + 1 }
  else if d.month < 12 then { year := d.year, month := d.month + 1, day := 1 }
  else { year := d.year + 1, month := 1, day := 1 }

/-- `date + timedelta(days := n)`. -/
def addDays (d : Date) : Nat → Date
  | 0 => d
  | n + 1 => nextDay (addDays d n)

/-- The numeric value of a decimal digit character. -/
def digitVal (c : Char) : Nat := c.toNat - 48

/-- `datetime.fromisoformat` on a `YYYY-MM-DD` string: `none` models
the `ValueError` raised on any other shape or an out-of-range
month/day. -/
def fromisoformat (s : String) : Option Date :=
  match s.toList with
  | [a, b, c, d, h1, e, f, h2, g, h] =>
      if a.isDigit && b.isDigit && c.isDigit && d.isDigit && h1 = '-' &&
         e.isDigit && f.isDigit && h2 = '-' && g.isDigit && h.isDigit then
        let dt : Date :=
          { year := ((digitVal a * 10 + digitVal b) * 10 + digitVal c) * 10 + digitVal d
            month := digitVal e * 10 + digitVal f
            day := digitVal g * 10 + digitVal h }
        if dateValid dt then some dt else none
      else none
  | _ => none

/-- Zero-pad a decimal rendering to a given width (as `%Y`/`%m`/`%d`
do). -/
def padNat (w n : Nat) : String :=
  let s := toString n
  String.mk (List.replicate (w - s.length) '0') ++ s

/-- `strftime('%Y-%m-%d')`. -/
def formatDate (d : Date) : String :=
  padNat 4 d.year ++ "-" ++ padNat 2 d.month ++ "-" ++ padNat 2 d.day

/-- The `timedelta` used per recurring pattern: `days=1`, `weeks=1`,
`days=30`. -/
def patternOffset (p : String) : Nat :=
  if p = "Daily" then 1 else if p = "Weekly" then 7 else 30

/-- The new due date computed by `_create_recurring_task` for one of
the three known patterns: empty stays empty, otherwise parse, shift,
reformat (`none` models the uncaught `ValueError` on an unparseable
nonempty date). -/
def shiftDue (due : String) (n : Nat) : Option String :=
  if due = "" then some ""
  else (fromisoformat due).map (fun d => formatDate (addDays d n))

/-- `TodoManager._create_recurring_task`: for an unknown nonempty
pattern the early `return` leaves the state untouched; otherwise a new
item copying the completed one (with the shifted due date and
completion reset) is appended, `next_id` is bumped and the file saved.
`none` models the uncaught `ValueError` from `fromisoformat`. -/
def TodoManager.create_recurring_task (now : String) (m : TodoManager)
    (completed_todo : TodoItem) : Option TodoManager :=
  let pat := completed_todo.recurring_pattern
  if pat = "Daily" || pat = "Weekly" || pat = "Monthly" then
    match shiftDue completed_todo.due_date (patternOffset pat) with
    | none => none
    | some next_due =>
        let new_todo := TodoItem.init now m.next_id completed_todo.title
          completed_todo.description false none completed_todo.priority
          completed_todo.category next_due completed_todo.recurring_pattern
        some (TodoManager.save_todos
          { m with todos := m.todos ++ [new_todo], next_id := m.next_id + 1 })
  else some m

/-- Replace the first list element with the given id (Python's loop
mutates the matched item in place and returns). -/
def replaceFirst (l : List TodoItem) (todo_id : Nat) (t' : TodoItem) :
    List TodoItem :=
  match l with
  | [] => []
  | t :: ts => if t.id = todo_id then t' :: ts else t :: replaceFirst ts todo_id t'

/-- `TodoManager.toggle_completion`: flip the first matching item's
`completed`, refresh its `updated_at`, regenerate a recurring task when
the item just became completed and has a nonempty pattern, then save.
`none` models the uncaught `ValueError` from date parsing. -/
def TodoManager.toggle_completion (now : String) (m : TodoManager)
    (todo_id : Nat) : Option (Bool × TodoManager) :=
  match m.todos.find? (fun t => t.id == todo_id) with
  | none => some (false, m)
  | some t =>
      let t' := { t with completed := !t.completed, updated_at := now }
      let m1 := { m with todos := replaceFirst m.todos todo_id t' }
      if t'.completed && t'.recurring_pattern != "" then
        match TodoManager.create_recurring_task now m1 t' with
        | none => none
        | some m2 => some (true, TodoManager.save_todos m2)
      else some (true, TodoManager.save_todos m1)

/-- The field-by-field body of `TodoManager.update_todo`'s loop once
the item is found: provided fields are assigned in source order
(title, description, priority, category, due date, recurring pattern);
each of the three validated fields returns `False` *after* the earlier
assignments have already mutated the item in place.  The returned flag
is `false` exactly on a validation failure, and the returned item is
the (possibly part-way updated) state of the mutated item. -/
def applyValidatedTail (t : TodoItem)
    (category? due_date? recurring? : Option String) : TodoItem × Bool :=
  let t1 := match category? with
    | some v => { t with category := v }
    | none => t
  match due_date? with
  | some v =>
      if validate_date_format v then
        let t2 := { t1 with due_date := v }
        match recurring? with
        | some r =>
            if validate_recurring_pattern r then
              ({ t2 with recurring_pattern := r }, true)
            else (t2, false)
        | none => (t2, true)
      else (t1, false)
  | none =>
      match recurring? with
      | some r =>
          if validate_recurring_pattern r then
            ({ t1 with recurring_pattern := r }, true)
          else (t1, false)
      | none => (t1, true)

/-- Title, description, and the validated priority step of
`update_todo`'s loop body; continues with `applyValidatedTail`. -/
def applyUpdates (t : TodoItem)
    (title? description? priority? category? due_date? recurring? :
      Option String) : TodoItem × Bool :=
  let t1 := match title? with
    | some v => { t with title := v }
    | none => t
  let t2 := match description? with
    | some v => { t1 with description := v }
    | none => t1
  match priority? with
  | some p =>
      if validPriority p then
        applyValidatedTail { t2 with priority := p } category? due_date? recurring?
      else (t2, false)
  | none => applyValidatedTail t2 category? due_date? recurring?

/-- `TodoManager.update_todo`: on a validation failure the function
returns `False` without saving, but the assignments made before the
failing check remain in the in-memory item; on success `updated_at` is
refreshed and the file saved. -/
def TodoManager.update_todo (now : String) (m : TodoManager) (todo_id : Nat)
    (title? : Option String := none) (description? : Option String := none)
    (priority? : Option String := none) (category? : Option String := none)
    (due_date? : Option String := none) (recurring? : Option String := none) :
    Bool × TodoManager :=
  match m.todos.find? (fun t => t.id == todo_id) with
  | none => (false, m)
  | some t =>
      match applyUpdates t title? description? priority? category? due_date? recurring? with
      | (t', false) => (false, { m with todos := replaceFirst m.todos todo_id t' })
      | (t', true) =>
          let t'' := { t' with updated_at := now }
          (true, TodoManager.save_todos
            { m with todos := replaceFirst m.todos todo_id t'' })

/-- `priority_order = {"High": 3, "Medium": 2, "Low": 1}`.  (In Python
any other key raises `KeyError`; such priorities never occur in a
reachable manager state — see the priority invariant below.) -/
def priorityRank (p : String) : Nat :=
  if p = "High" then 3 else if p = "Medium" then 2
  else if p = "Low" then 1 else 0

/-- Lexicographic strict order on character lists (Python string
comparison). -/
def charListLt : List Char → List Char → Bool
  | _, [] => false
  | [], _ :: _ => true
  | a :: as, b :: bs => decide (a < b) || (a == b && charListLt as bs)

/-- Lexicographic strict order on strings. -/
def strLtb (a b : String) : Bool :=
  charListLt a.data b.data

/-- The descending-by-creation-date order of
`todos.sort(key=..., reverse=True)`: `a` may precede `b` iff `a`'s
`created_at` is not smaller.  `datetime.fromisoformat` comparison on
the equal-shape ISO timestamps the program writes coincides with
lexicographic string comparison, which is how we embed the key. -/
def createdDescLe (a b : TodoItem) : Bool :=
  !(strLtb a.created_at b.created_at)

/-- The descending order on the pair key
`(priority_order[priority], created_at)` used when sorting by
priority. -/
def priorityDescLe (a b : TodoItem) : Bool :=
  !(decide (priorityRank a.priority < priorityRank b.priority) ||
    (priorityRank a.priority == priorityRank b.priority &&
      strLtb a.created_at b.created_at))

/-- The `list.sort(..., reverse=True)` call of `list_todos`: a stable
sort under the chosen descending comparator (CPython's sort is stable;
with `reverse=True` ties keep their original relative order). -/
def sortTodos (l : List TodoItem) (sort_by_priority : Bool) : List TodoItem :=
  if sort_by_priority then l.mergeSort priorityDescLe
  else l.mergeSort createdDescLe

/-- `TodoManager.list_todos`: with `show_completed` the local variable
aliases `self.todos`, so the in-place sort reorders the stored list;
otherwise a fresh filtered list is sorted and the stored list is left
untouched. -/
def TodoManager.list_todos (m : TodoManager) (show_completed : Bool := true)
    (sort_by_priority : Bool := false) : List TodoItem × TodoManager :=
  if show_completed then
    let sorted := sortTodos m.todos sort_by_priority
    (sorted, { m with todos := sorted })
  else
    (sortTodos (m.todos.filter (fun t => !t.completed)) sort_by_priority, m)

/-- One public operation of a running session, relating the manager
state before to the state after. -/
inductive Step : TodoManager → TodoManager → Prop where
  | add (now title description priority category due_date recurring_pattern :
        String) (m : TodoManager) :
      Step m (TodoManager.add_todo now m title description priority
        category due_date recurring_pattern).2
  | remove (todo_id : Nat) (m : TodoManager) :
      Step m (TodoManager.remove_todo m todo_id).2
  | toggle (now : String) (todo_id : Nat) {m m' : TodoManager} {b : Bool} :
      TodoManager.toggle_completion now m todo_id = some (b, m') →
      Step m m'
  | update (now : String) (todo_id : Nat)
      (title? description? priority? category? due_date? recurring? :
        Option String) (m : TodoManager) :
      Step m (TodoManager.update_todo now m todo_id title? description?
        priority? category? due_date? recurring?).2
  | list (show_completed sort_by_priority : Bool) (m : TodoManager) :
      Step m (TodoManager.list_todos m show_completed sort_by_priority).2

/-- Manager states reachable in one session: construction from some
file state followed by any sequence of the public operations. -/
def Reachable (m : TodoManager) : Prop :=
  ∃ now fs, Relation.ReflTransGen Step (TodoManager.init now fs) m

/-! ### Part 2: the web-variant task routes and services
(Full-Stack Web-phase-2/backend/src).  The database is modelled as the
list of task rows; route handlers receive the already-authenticated
user's id (the `get_current_active_user` dependency). -/

/-- A row of the `task` table (src/models/task.py, class `Task`). -/
structure Web.Task where
  id : Nat
  user_id : Nat
  title : String
  description : Option String
  completed : Bool
  created_at : String
  updated_at : String
deriving DecidableEq, Repr

/-- A handler outcome: a value, or an `HTTPException` with a status
code and detail message. -/
inductive Web.HttpResult (α : Type) where
  | ok : α → Web.HttpResult α
  | error : Nat → String → Web.HttpResult α
deriving DecidableEq, Repr

/-- `services.get_task_by_id`: first row matching both the task id and
the owner id. -/
def Web.get_task_by_id (store : List Web.Task) (task_id user_id : Nat) :
    Option Web.Task :=
  store.find? (fun t => t.id == task_id && t.user_id == user_id)

/-- Remove the first row matching `session.delete`'s target. -/
def Web.removeTask (store : List Web.Task) (task_id user_id : Nat) :
    List Web.Task :=
  match store with
  | [] => []
  | t :: ts =>
      if t.id == task_id && t.user_id == user_id then ts
      else t :: Web.removeTask ts task_id user_id

/-- `services.delete_task`: `False` and an unchanged store when no row
matches, otherwise delete the row and return `True`. -/
def Web.delete_task (store : List Web.Task) (task_id user_id : Nat) :
    Bool × List Web.Task :=
  match Web.get_task_by_id store task_id user_id with
  | none => (false, store)
  | some _ => (true, Web.removeTask store task_id user_id)

/-- Route `GET /api/{user_id}/tasks/{task_id}` (`read_task`):
authorization is checked before any task lookup; only then a missing
task yields 404. -/
def Web.read_task (current_user_id user_id task_id : Nat)
    (store : List Web.Task) : Web.HttpResult Web.Task :=
  if current_user_id ≠ user_id then
    Web.HttpResult.error 403 "Not authorized to access tasks for this user"
  else
    match Web.get_task_by_id store task_id user_id with
    | none => Web.HttpResult.error 404 "Task not found"
    | some t => Web.HttpResult.ok t

/-- Route `DELETE /api/{user_id}/tasks/{task_id}`
(`delete_existing_task`): authorization before lookup; the store is
only modified on success. -/
def Web.delete_existing_task (current_user_id user_id task_id : Nat)
    (store : List Web.Task) : Web.HttpResult String × List Web.Task :=
  if current_user_id ≠ user_id then
    (Web.HttpResult.error 403 "Not authorized to delete tasks for this user",
      store)
  else
    match Web.delete_task store task_id user_id with
    | (false, store') => (Web.HttpResult.error 404 "Task not found", store')
    | (true, store') => (Web.HttpResult.ok "Task deleted successfully", store')

/-! ### Part 3: the in-memory phase-1 `TodoCore`
(todo-app-phase-1/main.py). -/

/-- The phase-1 `Task` dataclass. -/
structure Core.Task where
  id : Nat
  title : String
  description : String
  status : String
  created_at : String
deriving DecidableEq, Repr

/-- The `TodoCore` state. -/
structure Core.TodoCore where
  tasks : List Core.Task
  next_id : Nat
deriving Repr

/-- `TodoCore.add_task`: a title that is empty after `strip()` raises
`ValueError` (modelled by `none`); otherwise a `pending` task with the
next id is appended and returned. -/
def Core.add_task (now : String) (app : Core.TodoCore) (title : String)
    (description : String := "") : Option Core.Task × Core.TodoCore :=
  if title.trim = "" then (none, app)
  else
    let task : Core.Task :=
      { id := app.next_id, title := title.trim,
        description := description.trim, status := "pending",
        created_at := now }
    (some task,
      { app with tasks := app.tasks ++ [task], next_id := app.next_id + 1 })

/-- Delete the first phase-1 task with the given id. -/
def Core.removeFirst (l : List Core.Task) (task_id : Nat) : List Core.Task :=
  match l with
  | [] => []
  | t :: ts => if t.id = task_id then ts else t :: Core.removeFirst ts task_id

/-- `TodoCore.delete_task`. -/
def Core.delete_task (app : Core.TodoCore) (task_id : Nat) :
    Bool × Core.TodoCore :=
  if app.tasks.any (fun t => t.id == task_id) then
    (true, { app with tasks := Core.removeFirst app.tasks task_id })
  else (false, app)

/-! ### Concrete states used by witnesses and counterexamples -/

def c2_item : TodoItem :=
  { id := 1, title := "a", description := "", completed := true,
    priority := "Medium", category := "", due_date := "",
    recurring_pattern := "Daily", created_at := "2024-01-01T00:00:00",
    updated_at := "x" }

def c2_mgr : TodoManager :=
  { todos := [c2_item], next_id := 2, file := FileState.missing, writes := 0 }

def c1_item : TodoItem :=
  { id := 1, title := "a", description := "d", completed := false,
    priority := "High", category := "cat", due_date := "2024-01-01",
    recurring_pattern := "Daily", created_at := "t1", updated_at := "t1" }

def c1_mgr : TodoManager :=
  { todos := [c1_item], next_id := 2, file := FileState.missing, writes := 0 }

def c3_item1 : TodoItem :=
  { id := 1, title := "a", description := "", completed := false,
    priority := "Medium", category := "", due_date := "",
    recurring_pattern := "", created_at := "t1", updated_at := "t1" }

def c3_item2 : TodoItem :=
  { id := 2, title := "b", description := "", completed := false,
    priority := "Medium", category := "", due_date := "",
    recurring_pattern := "", created_at := "t2", updated_at := "t2" }

def c3_mgr : TodoManager :=
  { todos := [c3_item1, c3_item2], next_id := 3, file := FileState.missing,
    writes := 0 }

def c4_m0 : TodoManager := TodoManager.init "t0" FileState.missing

def c4_m1 : TodoManager :=
  (TodoManager.add_todo "t1" c4_m0 "a" "" "Medium" "" "" "").2

def c4_m2 : TodoManager :=
  (TodoManager.add_todo "t2" c4_m1 "b" "" "Medium" "" "" "").2

def c4_m3 : TodoManager := (TodoManager.remove_todo c4_m2 2).2

def c6_item : TodoItem :=
  { id := 4, title := "t", description := "desc", completed := true,
    priority := "Low", category := "work", due_date := "2024-05-06",
    recurring_pattern := "Weekly", created_at := "2024-01-01T10:00:00",
    updated_at := "2024-01-02T10:00:00" }

def c6_mgr : TodoManager :=
  { todos := [c6_item], next_id := 5, file := FileState.missing, writes := 0 }

def c7_badDict : TodoDict :=
  { id := none, title := some "x", description := none, completed := none,
    priority := none, category := none, due_date := none,
    recurring_pattern := none, created_at := none, updated_at := none }

def c7_mgr1 : TodoManager :=
  { todos := [c2_item], next_id := 7, file := FileState.corrupt, writes := 0 }

def c7_mgr2 : TodoManager :=
  { todos := [], next_id := 1, file := FileState.parsed [c7_badDict],
    writes := 0 }

def c8_item : TodoItem :=
  { id := 1, title := "only", description := "", completed := false,
    priority := "Medium", category := "", due_date := "",
    recurring_pattern := "", created_at := "t1", updated_at := "t1" }

def c8_mgr : TodoManager :=
  { todos := [c8_item], next_id := 2, file := FileState.missing, writes := 0 }

def c8_coretask : Core.Task :=
  { id := 1, title := "a", description := "", status := "pending",
    created_at := "t1" }

def c8_core : Core.TodoCore :=
  { tasks := [c8_coretask], next_id := 2 }

def c8_webtask : Web.Task :=
  { id := 5, user_id := 2, title := "w", description := none,
    completed := false, created_at := "t1", updated_at := "t1" }

def c9_mgr : TodoManager :=
  (TodoManager.add_todo "t1" (TodoManager.init "t0" FileState.missing)
    "a" "" "High" "" "" "").2

def c10_item1 : TodoItem :=
  { id := 1, title := "old", description := "", completed := false,
    priority := "Medium", category := "", due_date := "",
    recurring_pattern := "", created_at := "2024-01-01T00:00:00",
    updated_at := "x" }

def c10_item2 : TodoItem :=
  { id := 2, title := "new", description := "", completed := false,
    priority := "Medium", category := "", due_date := "",
    recurring_pattern := "", created_at := "2024-01-02T00:00:00",
    updated_at := "x" }

def c10_mgr : TodoManager :=
  { todos := [c10_item1, c10_item2], next_id := 3,
    file := FileState.missing, writes := 0 }

/-! ### Helper lemmas -/

theorem find?_eq_first {i : Nat} {pre : List TodoItem} {t : TodoItem}
    (post : List TodoItem) (hpre : ∀ u ∈ pre, u.id ≠ i) (hid : t.id = i) :
    (pre ++ t :: post).find? (fun u => u.id == i) = some t := by
  induction pre with
  | nil => simp [List.find?, hid]
  | cons p ps ih =>
      have hp : (p.id == i) = false := by
        simp only [beq_eq_false_iff_ne]
        exact hpre p (List.mem_cons_self p ps)
      simp only [List.cons_append, List.find?, hp]
      exact ih (fun u hu => hpre u (List.mem_cons_of_mem p hu))

theorem replaceFirst_append {i : Nat} {pre : List TodoItem} {t : TodoItem}
    (post : List TodoItem) (t' : TodoItem)
    (hpre : ∀ u ∈ pre, u.id ≠ i) (hid : t.id = i) :
    replaceFirst (pre ++ t :: post) i t' = pre ++ t' :: post := by
  induction pre with
  | nil => simp [replaceFirst, hid]
  | cons p ps ih =>
      have hp : p.id ≠ i := hpre p (List.mem_cons_self p ps)
      simp only [List.cons_append, replaceFirst, if_neg hp, List.append_eq]
      rw [ih (fun u hu => hpre u (List.mem_cons_of_mem p hu))]

theorem replaceFirst_length (l : List TodoItem) (i : Nat) (t' : TodoItem) :
    (replaceFirst l i t').length = l.length := by
  induction l with
  | nil => rfl
  | cons x xs ih =>
      simp only [replaceFirst]
      split <;> simp [ih]

theorem mem_replaceFirst {u : TodoItem} {l : List TodoItem} {i : Nat}
    {t' : TodoItem} (h : u ∈ replaceFirst l i t') : u ∈ l ∨ u = t' := by
  induction l with
  | nil => simp [replaceFirst] at h
  | cons x xs ih =>
      simp only [replaceFirst] at h
      by_cases hx : x.id = i
      · rw [if_pos hx] at h
        rcases List.mem_cons.mp h with h | h
        · exact Or.inr h
        · exact Or.inl (List.mem_cons_of_mem x h)
      · rw [if_neg hx] at h
        rcases List.mem_cons.mp h with h | h
        · exact Or.inl (h ▸ List.mem_cons_self x xs)
        · rcases ih h with h | h
          · exact Or.inl (List.mem_cons_of_mem x h)
          · exact Or.inr h

theorem mem_replaceFirst_of_ne {u : TodoItem} {l : List TodoItem} {i : Nat}
    (t' : TodoItem) (hu : u ∈ l) (hne : u.id ≠ i) :
    u ∈ replaceFirst l i t' := by
  induction l with
  | nil => simp at hu
  | cons x xs ih =>
      simp only [replaceFirst]
      by_cases hx : x.id = i
      · rw [if_pos hx]
        rcases List.mem_cons.mp hu with h | h
        · exact absurd (h ▸ hx) hne
        · exact List.mem_cons_of_mem _ h
      · rw [if_neg hx]
        rcases List.mem_cons.mp hu with h | h
        · exact h ▸ List.mem_cons_self x _
        · exact List.mem_cons_of_mem _ (ih h)

theorem mem_removeFirst {u : TodoItem} {l : List TodoItem} {i : Nat}
    (h : u ∈ removeFirst l i) : u ∈ l := by
  induction l with
  | nil => simpa [removeFirst] using h
  | cons x xs ih =>
      simp only [removeFirst] at h
      by_cases hx : x.id = i
      · rw [if_pos hx] at h
        exact List.mem_cons_of_mem x h
      · rw [if_neg hx] at h
        rcases List.mem_cons.mp h with h | h
        · exact h ▸ List.mem_cons_self x xs
        · exact List.mem_cons_of_mem x (ih h)

theorem maxId_cons (t : TodoItem) (l : List TodoItem) :
    maxId (t :: l) = max t.id (maxId l) := rfl

theorem le_maxId {t : TodoItem} {l : List TodoItem} (h : t ∈ l) :
    t.id ≤ maxId l := by
  induction l with
  | nil => simp at h
  | cons x xs ih =>
      rw [maxId_cons]
      rcases List.mem_cons.mp h with h | h
      · exact h ▸ Nat.le_max_left _ _
      · exact Nat.le_trans (ih h) (Nat.le_max_right _ _)

/-- `TodoItem.__init__` always produces a valid priority. -/
theorem validPriority_init (now : String) (id : Nat)
    (title description : String) (completed : Bool)
    (created_at : Option String) (priority category due_date rp : String) :
    validPriority (TodoItem.init now id title description completed
      created_at priority category due_date rp).priority = true := by
  simp only [TodoItem.init]
  by_cases h : validPriority priority = true
  · simp [h]
  · simp [h]
    rfl

/-- A successfully deserialized item has a valid priority. -/
theorem from_dict_priority {now : String} {d : TodoDict} {t : TodoItem}
    (h : TodoItem.from_dict now d = some t) :
    validPriority t.priority = true := by
  unfold TodoItem.from_dict at h
  cases hid : d.id with
  | none => rw [hid] at h; exact absurd h (by simp)
  | some idv =>
      cases htitle : d.title with
      | none => rw [hid, htitle] at h; exact absurd h (by simp)
      | some titlev =>
          rw [hid, htitle] at h
          simp only [Option.some.injEq] at h
          subst h
          exact validPriority_init now idv titlev (d.description.getD "")
            (d.completed.getD false) d.created_at (d.priority.getD "Medium")
            (d.category.getD "") (d.due_date.getD "")
            (d.recurring_pattern.getD "")

/-- Every item of a successfully deserialized list has a valid
priority. -/
theorem from_dict_list_priority {now : String} {data : List TodoDict}
    {items : List TodoItem} (h : from_dict_list now data = some items) :
    ∀ t ∈ items, validPriority t.priority = true := by
  induction data generalizing items with
  | nil =>
      simp only [from_dict_list, Option.some.injEq] at h
      subst h; simp
  | cons d ds ih =>
      simp only [from_dict_list] at h
      cases h1 : TodoItem.from_dict now d with
      | none => rw [h1] at h; exact absurd h (by simp)
      | some t =>
          cases h2 : from_dict_list now ds with
          | none => rw [h1, h2] at h; exact absurd h (by simp)
          | some ts =>
              rw [h1, h2] at h
              simp only [Option.some.injEq] at h
              subst h
              intro u hu
              rcases List.mem_cons.mp hu with h | h
              · exact h ▸ from_dict_priority h1
              · exact ih h2 u h

/-- Serialization round-trips on a single well-formed item. -/
theorem from_dict_to_dict (now : String) {t : TodoItem}
    (h1 : validPriority t.priority = true) (h2 : t.created_at ≠ "") :
    TodoItem.from_dict now t.to_dict = some t := by
  obtain ⟨id, title, description, completed, priority, category, due_date,
    rp, created_at, updated_at⟩ := t
  simp only [validPriority] at h1
  simp only at h2
  simp [TodoItem.to_dict, TodoItem.from_dict, TodoItem.init, validPriority,
    h1, if_neg h2]

/-- Serialization round-trips on a list of well-formed items. -/
theorem from_dict_list_to_dict (now : String) {l : List TodoItem}
    (h : ∀ t ∈ l, validPriority t.priority = true ∧ t.created_at ≠ "") :
    from_dict_list now (l.map TodoItem.to_dict) = some l := by
  induction l with
  | nil => rfl
  | cons t ts ih =>
      have ht := h t (List.mem_cons_self t ts)
      simp only [List.map_cons, from_dict_list,
        from_dict_to_dict now ht.1 ht.2,
        ih (fun u hu => h u (List.mem_cons_of_mem t hu))]

/-- A dictionary missing `id` or `title` fails deserialization. -/
theorem from_dict_missing {now : String} {d : TodoDict}
    (h : d.id = none ∨ d.title = none) :
    TodoItem.from_dict now d = none := by
  unfold TodoItem.from_dict
  rcases h with h | h <;> rw [h] <;> cases d.id <;> cases d.title <;> simp

/-- One failing dictionary aborts the whole comprehension. -/
theorem from_dict_list_none {now : String} {data : List TodoDict}
    {d : TodoDict} (hd : d ∈ data)
    (h : TodoItem.from_dict now d = none) :
    from_dict_list now data = none := by
  induction data with
  | nil => simp at hd
  | cons x xs ih =>
      rcases List.mem_cons.mp hd with hx | hx
      · subst hx
        simp only [from_dict_list, h]
      · simp only [from_dict_list, ih hx]
        cases TodoItem.from_dict now x <;> rfl

/-! ### Invariants of reachable manager states -/

/-- All stored priorities are valid. -/
def PriorityInv (m : TodoManager) : Prop :=
  ∀ t ∈ m.todos, validPriority t.priority = true

/-- The id counter strictly dominates every stored id. -/
def IdInv (m : TodoManager) : Prop :=
  ∀ t ∈ m.todos, t.id < m.next_id

/-- The session invariant. -/
def Inv (m : TodoManager) : Prop := PriorityInv m ∧ IdInv m

theorem save_todos_todos (m : TodoManager) :
    (TodoManager.save_todos m).todos = m.todos := rfl

theorem save_todos_next_id (m : TodoManager) :
    (TodoManager.save_todos m).next_id = m.next_id := rfl

theorem update_next_id_todos (m : TodoManager) :
    (TodoManager.update_next_id m).todos = m.todos := by
  unfold TodoManager.update_next_id
  split <;> rfl

theorem idInv_update_next_id (m : TodoManager) :
    IdInv (TodoManager.update_next_id m) := by
  intro t ht
  rw [update_next_id_todos] at ht
  unfold TodoManager.update_next_id
  by_cases he : m.todos.isEmpty = true
  · rw [List.isEmpty_iff] at he
    rw [he] at ht
    simp at ht
  · rw [if_neg he]
    exact Nat.lt_succ_of_le (le_maxId ht)

theorem inv_init (now : String) (fs : FileState) :
    Inv (TodoManager.init now fs) := by
  constructor
  · intro t ht
    unfold TodoManager.init at ht
    rw [update_next_id_todos] at ht
    cases fs with
    | missing => simp [TodoManager.load_todos] at ht
    | corrupt => simp [TodoManager.load_todos] at ht
    | parsed data =>
        cases hfl : from_dict_list now data with
        | none => simp [TodoManager.load_todos, hfl] at ht
        | some items =>
            simp only [TodoManager.load_todos, hfl, update_next_id_todos]
              at ht
            exact from_dict_list_priority hfl t ht
  · exact idInv_update_next_id _

theorem init_id (now : String) (id : Nat) (title description : String)
    (completed : Bool) (created_at : Option String)
    (priority category due_date rp : String) :
    (TodoItem.init now id title description completed created_at priority
      category due_date rp).id = id := rfl

/-- `_create_recurring_task` preserves the invariant and never lowers
the id counter. -/
theorem inv_create_recurring {now : String} {m m2 : TodoManager}
    {t : TodoItem} (hP : PriorityInv m) (hI : IdInv m)
    (hc : TodoManager.create_recurring_task now m t = some m2) :
    PriorityInv m2 ∧ IdInv m2 ∧ m.next_id ≤ m2.next_id := by
  unfold TodoManager.create_recurring_task at hc
  by_cases hpat : (t.recurring_pattern = "Daily" ||
      t.recurring_pattern = "Weekly" || t.recurring_pattern = "Monthly") = true
  · rw [if_pos hpat] at hc
    cases hs : shiftDue t.due_date (patternOffset t.recurring_pattern) with
    | none => rw [hs] at hc; exact absurd hc (by simp)
    | some nd =>
        rw [hs] at hc
        simp only [Option.some.injEq] at hc
        subst hc
        refine ⟨?_, ?_, ?_⟩
        · intro u hu
          rw [save_todos_todos] at hu
          rcases List.mem_append.mp hu with hu | hu
          · exact hP u hu
          · rcases List.mem_singleton.mp hu with rfl
            exact validPriority_init ..
        · intro u hu
          rw [save_todos_todos] at hu
          rw [save_todos_next_id]
          rcases List.mem_append.mp hu with hu | hu
          · exact Nat.lt_succ_of_lt (hI u hu)
          · rcases List.mem_singleton.mp hu with rfl
            rw [init_id]
            exact Nat.lt_succ_self _
        · rw [save_todos_next_id]
          exact Nat.le_succ _
  · rw [if_neg hpat] at hc
    simp only [Option.some.injEq] at hc
    subst hc
    exact ⟨hP, hI, Nat.le_refl _⟩

/-- `toggle_completion` preserves the invariant and never lowers the
id counter. -/
theorem inv_toggle {now : String} {i : Nat} {m m' : TodoManager} {b : Bool}
    (hP : PriorityInv m) (hI : IdInv m)
    (h : TodoManager.toggle_completion now m i = some (b, m')) :
    PriorityInv m' ∧ IdInv m' ∧ m.next_id ≤ m'.next_id := by
  unfold TodoManager.toggle_completion at h
  cases hfind : m.todos.find? (fun t => t.id == i) with
  | none =>
      rw [hfind] at h
      simp only [Option.some.injEq, Prod.mk.injEq] at h
      rw [← h.2]
      exact ⟨hP, hI, Nat.le_refl _⟩
  | some t =>
      rw [hfind] at h
      have htm : t ∈ m.todos := List.mem_of_find?_eq_some hfind
      simp only [Option.some.injEq, Prod.mk.injEq] at h
      have hP1 : PriorityInv { m with todos := replaceFirst m.todos i { t with completed := !t.completed, updated_at := now } } := by
        intro u hu
        rcases mem_replaceFirst hu with hu | rfl
        · exact hP u hu
        · exact hP t htm
      have hI1 : IdInv { m with todos := replaceFirst m.todos i { t with completed := !t.completed, updated_at := now } } := by
        intro u hu
        rcases mem_replaceFirst hu with hu | rfl
        · exact hI u hu
        · exact hI t htm
      split at h
      · split at h
        · exact absurd h (by simp)
        · rename_i m2 hc
          simp only [Option.some.injEq, Prod.mk.injEq] at h
          obtain ⟨hm2P, hm2I, hm2n⟩ := inv_create_recurring hP1 hI1 hc
          rw [← h.2]
          exact ⟨hm2P, hm2I, hm2n⟩
      · simp only [Option.some.injEq, Prod.mk.injEq] at h
        rw [← h.2]
        exact ⟨hP1, hI1, Nat.le_refl _⟩

theorem applyValidatedTail_fields (t : TodoItem)
    (category? due_date? recurring? : Option String) :
    (applyValidatedTail t category? due_date? recurring?).1.priority =
      t.priority ∧
    (applyValidatedTail t category? due_date? recurring?).1.id = t.id := by
  unfold applyValidatedTail
  cases category? <;> cases due_date? <;> cases recurring? <;>
    simp only [] <;> (repeat' split) <;> simp

theorem applyUpdates_fields (t : TodoItem)
    (title? description? priority? category? due_date? recurring? :
      Option String) (h : validPriority t.priority = true) :
    validPriority (applyUpdates t title? description? priority? category?
      due_date? recurring?).1.priority = true ∧
    (applyUpdates t title? description? priority? category? due_date?
      recurring?).1.id = t.id := by
  unfold applyUpdates
  cases title? <;> cases description? <;> cases priority? <;>
    simp only [] <;> (repeat' split) <;>
    refine ⟨?_, ?_⟩ <;>
    first
    | exact (applyValidatedTail_fields ..).2
    | (rw [(applyValidatedTail_fields ..).1]; first | exact h | simp_all)
    | exact h
    | rfl
    | simp_all

/-- `update_todo` preserves the invariant and the id counter. -/
theorem inv_update {now : String} {i : Nat} {m : TodoManager}
    (title? description? priority? category? due_date? recurring? :
      Option String) (hP : PriorityInv m) (hI : IdInv m) :
    PriorityInv (TodoManager.update_todo now m i title? description?
      priority? category? due_date? recurring?).2 ∧
    IdInv (TodoManager.update_todo now m i title? description? priority?
      category? due_date? recurring?).2 ∧
    (TodoManager.update_todo now m i title? description? priority?
      category? due_date? recurring?).2.next_id = m.next_id := by
  unfold TodoManager.update_todo
  cases hfind : m.todos.find? (fun t => t.id == i) with
  | none => exact ⟨hP, hI, rfl⟩
  | some t =>
      have htm : t ∈ m.todos := List.mem_of_find?_eq_some hfind
      have hf := applyUpdates_fields t title? description? priority?
        category? due_date? recurring? (hP t htm)
      split
      · rename_i heq
        cases heq
      rename_i x t0 heq0
      cases heq0
      split
      · rename_i t1 heq
        rw [heq] at hf
        simp only at hf
        refine ⟨?_, ?_, rfl⟩
        · intro u hu
          rcases mem_replaceFirst hu with hu | rfl
          · exact hP u hu
          · exact hf.1
        · intro u hu
          rcases mem_replaceFirst hu with hu | rfl
          · exact hI u hu
          · rw [hf.2]; exact hI t htm
      · rename_i t1 heq
        rw [heq] at hf
        simp only at hf
        refine ⟨?_, ?_, rfl⟩
        · intro u hu
          rw [save_todos_todos] at hu
          rcases mem_replaceFirst hu with hu | rfl
          · exact hP u hu
          · exact hf.1
        · intro u hu
          rw [save_todos_todos] at hu
          rw [save_todos_next_id]
          rcases mem_replaceFirst hu with hu | rfl
          · exact hI u hu
          · rw [hf.2]; exact hI t htm

theorem sortTodos_mem {u : TodoItem} {l : List TodoItem} {sp : Bool} :
    u ∈ sortTodos l sp ↔ u ∈ l := by
  unfold sortTodos
  split <;> exact List.mem_mergeSort

/-- `add_todo` on fully valid inputs: the exact result. -/
theorem add_todo_success (now : String) (m : TodoManager)
    (title description priority category due_date rp : String)
    (h1 : validPriority priority = true)
    (h2 : validate_date_format due_date = true)
    (h3 : validate_recurring_pattern rp = true) :
    TodoManager.add_todo now m title description priority category
      due_date rp =
    (some (TodoItem.init now m.next_id title description false none
        priority category due_date rp),
      TodoManager.save_todos { m with
        todos := m.todos ++ [TodoItem.init now m.next_id title description
          false none priority category due_date rp],
        next_id := m.next_id + 1 }) := by
  unfold TodoManager.add_todo
  simp [h1, h2, h3]

/-- `add_todo` on any invalid input: report and change nothing. -/
theorem add_todo_fail (now : String) (m : TodoManager)
    (title description priority category due_date rp : String)
    (h : validPriority priority = false ∨
      validate_date_format due_date = false ∨
      validate_recurring_pattern rp = false) :
    TodoManager.add_todo now m title description priority category
      due_date rp = (none, m) := by
  unfold TodoManager.add_todo
  rcases h with h | h | h
  · simp [h]
  · rcases hp : validPriority priority <;> simp [h, hp]
  · rcases hp : validPriority priority <;>
      rcases hd : validate_date_format due_date <;> simp [h, hp, hd]

/-- `list_todos` with `show_completed`: the stored list is the sorted
list (the local variable aliases `self.todos`). -/
theorem list_todos_true (m : TodoManager) (sp : Bool) :
    TodoManager.list_todos m true sp =
      (sortTodos m.todos sp, { m with todos := sortTodos m.todos sp }) := rfl

/-- `list_todos` without `show_completed`: a fresh filtered list is
sorted and the manager is untouched. -/
theorem list_todos_false (m : TodoManager) (sp : Bool) :
    TodoManager.list_todos m false sp =
      (sortTodos (m.todos.filter (fun t => !t.completed)) sp, m) := rfl

/-- Every session operation preserves the invariant and never lowers
the id counter. -/
theorem step_inv {m m' : TodoManager} (hinv : Inv m) (s : Step m m') :
    Inv m' ∧ m.next_id ≤ m'.next_id := by
  obtain ⟨hP, hI⟩ := hinv
  cases s with
  | add now title description priority category due_date rp m =>
      by_cases h1 : validPriority priority = true
      · by_cases h2 : validate_date_format due_date = true
        · by_cases h3 : validate_recurring_pattern rp = true
          · rw [add_todo_success now m title description priority category
              due_date rp h1 h2 h3]
            refine ⟨⟨?_, ?_⟩, ?_⟩
            · intro u hu
              rw [save_todos_todos] at hu
              rcases List.mem_append.mp hu with hu | hu
              · exact hP u hu
              · rcases List.mem_singleton.mp hu with rfl
                exact validPriority_init ..
            · intro u hu
              rw [save_todos_todos] at hu
              rw [save_todos_next_id]
              rcases List.mem_append.mp hu with hu | hu
              · exact Nat.lt_succ_of_lt (hI u hu)
              · rcases List.mem_singleton.mp hu with rfl
                rw [init_id]
                exact Nat.lt_succ_self _
            · rw [save_todos_next_id]
              exact Nat.le_succ _
          · rw [add_todo_fail now m title description priority category
              due_date rp (Or.inr (Or.inr (by simpa using h3)))]
            exact ⟨⟨hP, hI⟩, Nat.le_refl _⟩
        · rw [add_todo_fail now m title description priority category
            due_date rp (Or.inr (Or.inl (by simpa using h2)))]
          exact ⟨⟨hP, hI⟩, Nat.le_refl _⟩
      · rw [add_todo_fail now m title description priority category
          due_date rp (Or.inl (by simpa using h1))]
        exact ⟨⟨hP, hI⟩, Nat.le_refl _⟩
  | remove todo_id m =>
      unfold TodoManager.remove_todo
      split
      · refine ⟨⟨?_, ?_⟩, Nat.le_refl _⟩
        · intro u hu
          rw [save_todos_todos] at hu
          exact hP u (mem_removeFirst hu)
        · intro u hu
          rw [save_todos_todos] at hu
          rw [save_todos_next_id]
          exact hI u (mem_removeFirst hu)
      · exact ⟨⟨hP, hI⟩, Nat.le_refl _⟩
  | toggle now todo_id h =>
      obtain ⟨h1, h2, h3⟩ := inv_toggle hP hI h
      exact ⟨⟨h1, h2⟩, h3⟩
  | update now todo_id title? description? priority? category? due_date?
      recurring? m =>
      obtain ⟨h1, h2, h3⟩ := inv_update title? description? priority?
        category? due_date? recurring? hP hI
      exact ⟨⟨h1, h2⟩, h3 ▸ Nat.le_refl _⟩
  | list show_completed sort_by_priority m =>
      cases show_completed with
      | true =>
          rw [list_todos_true]
          refine ⟨⟨?_, ?_⟩, Nat.le_refl _⟩
          · intro u hu
            exact hP u (sortTodos_mem.mp hu)
          · intro u hu
            exact hI u (sortTodos_mem.mp hu)
      | false =>
          rw [list_todos_false]
          exact ⟨⟨hP, hI⟩, Nat.le_refl _⟩

/-- Every reachable state satisfies the invariant. -/
theorem reachable_inv {m : TodoManager} (h : Reachable m) : Inv m := by
  obtain ⟨now, fs, hsteps⟩ := h
  induction hsteps with
  | refl => exact inv_init now fs
  | tail _ s ih => exact (step_inv ih s).1

/-- The id counter never decreases along a session. -/
theorem steps_next_id_le {m m' : TodoManager}
    (hinv : Inv m) (h : Relation.ReflTransGen Step m m') :
    m.next_id ≤ m'.next_id ∧ Inv m' := by
  induction h with
  | refl => exact ⟨Nat.le_refl _, hinv⟩
  | tail _ s ih =>
      obtain ⟨hle, hi⟩ := ih
      obtain ⟨hi', hle'⟩ := step_inv hi s
      exact ⟨Nat.le_trans hle hle', hi'⟩

/-! ### The sort comparators are total preorders

`list.sort` with `reverse=True` is a stable sort under the
corresponding descending comparator; to reason about sortedness we
show the two comparators are transitive and total. -/

theorem charListLt_trans : ∀ {a b c : List Char},
    charListLt a b = true → charListLt b c = true → charListLt a c = true
  | _, [], _, hab, _ => by simp [charListLt] at hab
  | _, _ :: _, [], _, hbc => by simp [charListLt] at hbc
  | [], b :: bs, c :: cs, _, _ => by simp [charListLt]
  | a :: as, b :: bs, c :: cs, hab, hbc => by
      simp only [charListLt, Bool.or_eq_true, Bool.and_eq_true,
        decide_eq_true_eq, beq_iff_eq] at hab hbc ⊢
      rcases hab with hab | ⟨rfl, hab⟩
      · rcases hbc with hbc | ⟨rfl, _⟩
        · exact Or.inl (lt_trans hab hbc)
        · exact Or.inl hab
      · rcases hbc with hbc | ⟨rfl, hbc⟩
        · exact Or.inl hbc
        · exact Or.inr ⟨rfl, charListLt_trans hab hbc⟩

theorem charListLt_connex : ∀ {a b : List Char},
    charListLt a b = false → charListLt b a = false → a = b
  | [], [], _, _ => rfl
  | [], _ :: _, hab, _ => by simp [charListLt] at hab
  | _ :: _, [], _, hba => by simp [charListLt] at hba
  | a :: as, b :: bs, hab, hba => by
      simp only [charListLt, Bool.or_eq_false_iff, Bool.and_eq_false_iff,
        decide_eq_false_iff_not, beq_eq_false_iff_ne, ne_eq] at hab hba
      have hac : a = b := by
        rcases lt_trichotomy a b with h | h | h
        · exact absurd h hab.1
        · exact h
        · exact absurd h hba.1
      subst hac
      rcases hab.2 with h | h
      · exact absurd rfl h
      · rcases hba.2 with h' | h'
        · exact absurd rfl h'
        · exact congrArg (a :: ·) (charListLt_connex h h')

theorem charListLt_irrefl : ∀ a : List Char, charListLt a a = false
  | [] => rfl
  | x :: xs => by simp [charListLt, charListLt_irrefl xs]

theorem strLtb_trans {a b c : String} (hab : strLtb a b = true)
    (hbc : strLtb b c = true) : strLtb a c = true :=
  charListLt_trans hab hbc

theorem strLtb_irrefl (s : String) : strLtb s s = false :=
  charListLt_irrefl s.data

theorem strLtb_connex {a b : String} (hab : strLtb a b = false)
    (hba : strLtb b a = false) : a = b := by
  cases a with
  | mk da =>
      cases b with
      | mk db => exact congrArg String.mk (charListLt_connex hab hba)

/-- Transitivity of a descending comparator derived from a strict
order that is transitive and connex. -/
theorem desc_trans {α : Type} (ltb : α → α → Bool)
    (htrans : ∀ x y z, ltb x y = true → ltb y z = true → ltb x z = true)
    (hconnex : ∀ x y, ltb x y = false → ltb y x = false → x = y)
    {x y z : α} (hxy : ltb x y = false) (hyz : ltb y z = false) :
    ltb x z = false := by
  cases hyx : ltb y x with
  | true =>
      cases hxz : ltb x z with
      | true => exact absurd (htrans y x z hyx hxz) (by rw [hyz]; simp)
      | false => rfl
  | false => rw [hconnex x y hxy hyx]; exact hyz

theorem createdDescLe_trans {a b c : TodoItem}
    (hab : createdDescLe a b = true) (hbc : createdDescLe b c = true) :
    createdDescLe a c = true := by
  simp only [createdDescLe, Bool.not_eq_true'] at hab hbc ⊢
  exact desc_trans strLtb (fun _ _ _ => strLtb_trans)
    (fun _ _ => strLtb_connex) hab hbc

theorem createdDescLe_total (a b : TodoItem) :
    (createdDescLe a b || createdDescLe b a) = true := by
  simp only [createdDescLe, Bool.or_eq_true, Bool.not_eq_true']
  cases hab : strLtb a.created_at b.created_at with
  | false => exact Or.inl rfl
  | true =>
      cases hba : strLtb b.created_at a.created_at with
      | false => exact Or.inr rfl
      | true =>
          exact absurd (strLtb_trans hab hba)
            (by rw [strLtb_irrefl]; simp)

/-- The strict lexicographic order on the `(rank, created)` pair key. -/
def pairLt (p q : Nat × String) : Bool :=
  decide (p.1 < q.1) || (p.1 == q.1 && strLtb p.2 q.2)

theorem pairLt_trans : ∀ x y z : Nat × String,
    pairLt x y = true → pairLt y z = true → pairLt x z = true := by
  intro x y z hxy hyz
  simp only [pairLt, Bool.or_eq_true, Bool.and_eq_true,
    decide_eq_true_eq, beq_iff_eq] at hxy hyz ⊢
  rcases hxy with h | ⟨he, hs⟩
  · rcases hyz with h' | ⟨he', _⟩
    · exact Or.inl (Nat.lt_trans h h')
    · exact Or.inl (he' ▸ h)
  · rcases hyz with h' | ⟨he', hs'⟩
    · exact Or.inl (he ▸ h')
    · exact Or.inr ⟨he.trans he', strLtb_trans hs hs'⟩

theorem pairLt_connex : ∀ x y : Nat × String,
    pairLt x y = false → pairLt y x = false → x = y := by
  intro x y hxy hyx
  simp only [pairLt, Bool.or_eq_false_iff, Bool.and_eq_false_iff,
    decide_eq_false_iff_not, beq_eq_false_iff_ne, ne_eq] at hxy hyx
  have he : x.1 = y.1 := by omega
  have hs : x.2 = y.2 := by
    apply strLtb_connex
    · rcases hxy.2 with h | h
      · exact absurd he h
      · exact h
    · rcases hyx.2 with h | h
      · exact absurd he.symm h
      · exact h
  exact Prod.ext he hs

theorem priorityDescLe_eq (a b : TodoItem) :
    priorityDescLe a b =
      !(pairLt (priorityRank a.priority, a.created_at)
        (priorityRank b.priority, b.created_at)) := rfl

theorem priorityDescLe_trans {a b c : TodoItem}
    (hab : priorityDescLe a b = true) (hbc : priorityDescLe b c = true) :
    priorityDescLe a c = true := by
  rw [priorityDescLe_eq] at hab hbc ⊢
  simp only [Bool.not_eq_true'] at hab hbc ⊢
  exact desc_trans pairLt pairLt_trans pairLt_connex hab hbc

theorem pairLt_irrefl (p : Nat × String) : pairLt p p = false := by
  simp [pairLt, strLtb_irrefl]

theorem priorityDescLe_total (a b : TodoItem) :
    (priorityDescLe a b || priorityDescLe b a) = true := by
  rw [priorityDescLe_eq, priorityDescLe_eq]
  simp only [Bool.or_eq_true, Bool.not_eq_true']
  cases h1 : pairLt (priorityRank a.priority, a.created_at)
      (priorityRank b.priority, b.created_at) with
  | false => exact Or.inl rfl
  | true =>
      cases h2 : pairLt (priorityRank b.priority, b.created_at)
          (priorityRank a.priority, a.created_at) with
      | false => exact Or.inr rfl
      | true =>
          exact absurd (pairLt_trans _ _ _ h1 h2)
            (by rw [pairLt_irrefl]; simp)

/-- The stored list after a `show_completed` listing is sorted in the
requested descending order. -/
theorem sortTodos_pairwise (l : List TodoItem) (sp : Bool) :
    (sortTodos l sp).Pairwise
      (fun a b => (if sp then priorityDescLe else createdDescLe) a b
        = true) := by
  cases sp with
  | true =>
      exact @List.sorted_mergeSort TodoItem priorityDescLe
        (fun a b c hab hbc => priorityDescLe_trans hab hbc)
        priorityDescLe_total l
  | false =>
      exact @List.sorted_mergeSort TodoItem createdDescLe
        (fun a b c hab hbc => createdDescLe_trans hab hbc)
        createdDescLe_total l

/-- The sort is a permutation. -/
theorem sortTodos_perm (l : List TodoItem) (sp : Bool) :
    (sortTodos l sp).Perm l := by
  unfold sortTodos
  split <;> exact List.mergeSort_perm l _

/-- `_create_recurring_task` for a known pattern and a defined shifted
due date: the exact appended item and state. -/
theorem create_recurring_eq (now : String) (m : TodoManager) (t : TodoItem)
    (hpat : t.recurring_pattern = "Daily" ∨ t.recurring_pattern = "Weekly" ∨
      t.recurring_pattern = "Monthly")
    {nd : String}
    (hnd : shiftDue t.due_date (patternOffset t.recurring_pattern) = some nd) :
    TodoManager.create_recurring_task now m t =
      some (TodoManager.save_todos { m with
        todos := m.todos ++ [TodoItem.init now m.next_id t.title
          t.description false none t.priority t.category nd
          t.recurring_pattern],
        next_id := m.next_id + 1 }) := by
  unfold TodoManager.create_recurring_task
  have hc : (decide (t.recurring_pattern = "Daily") ||
      decide (t.recurring_pattern = "Weekly") ||
      decide (t.recurring_pattern = "Monthly")) = true := by
    rcases hpat with hp | hp | hp <;> rw [hp] <;> rfl
  simp only [hc, if_true, hnd]

/-! ### Claims -/

/-- C2: toggling an existing item whose recurring pattern is empty, or
toggling it from complete back to incomplete, creates no item and
removes no item: the collection keeps its length, every other item is
untouched, the toggled item changes exactly its `completed` (negated)
and `updated_at` fields, and the id counter is unchanged. -/
theorem spec_C2_toggle_no_regen (now : String) (m : TodoManager) (i : Nat)
    (pre post : List TodoItem) (t : TodoItem)
    (hsplit : m.todos = pre ++ t :: post)
    (hpre : ∀ u ∈ pre, u.id ≠ i) (hid : t.id = i)
    (hcase : t.recurring_pattern = "" ∨ t.completed = true) :
    ∃ m', TodoManager.toggle_completion now m i = some (true, m') ∧
      m'.todos.length = m.todos.length ∧
      m'.todos =
        pre ++ { t with completed := !t.completed, updated_at := now } :: post ∧
      m'.next_id = m.next_id := by
  have hfind : m.todos.find? (fun u => u.id == i) = some t := by
    rw [hsplit]; exact find?_eq_first post hpre hid
  have hrep : replaceFirst m.todos i
      { t with completed := !t.completed, updated_at := now } =
      pre ++ { t with completed := !t.completed, updated_at := now } :: post := by
    rw [hsplit]; exact replaceFirst_append post _ hpre hid
  refine ⟨TodoManager.save_todos { m with todos := pre ++ { t with completed := !t.completed, updated_at := now } :: post }, ?_, ?_, ?_, ?_⟩
  · simp only [TodoManager.toggle_completion, hfind]
    rw [hrep]
    rcases hcase with hc | hc
    · simp [hc]
    · simp [hc]
  · rw [save_todos_todos, hsplit]
    simp
  · exact save_todos_todos _
  · rfl

/-- C2 witness: a completed `Daily` item toggled back to incomplete is
the only item before and after, with only `completed`/`updated_at`
changed. -/
theorem spec_C2_witness :
    ∃ m', TodoManager.toggle_completion "T" c2_mgr 1 = some (true, m') ∧
      m'.todos.length = c2_mgr.todos.length ∧
      m'.todos = [] ++ { c2_item with completed := !c2_item.completed, updated_at := "T" } :: [] ∧
      m'.next_id = c2_mgr.next_id :=
  spec_C2_toggle_no_regen "T" c2_mgr 1 [] [] c2_item rfl (by simp) rfl
    (Or.inr rfl)

/-- C1: toggling an incomplete item with a `Daily`/`Weekly`/`Monthly`
recurring pattern to complete appends exactly one new item carrying
the same title, description, priority, category and recurring pattern,
with a fresh id, `completed = false`, and a due date shifted by 1, 7,
or 30 days respectively; an empty original due date stays empty with
no error.  (Priorities of stored items are always valid, and a
nonempty due date of a stored item reaching this code parses, which
the `hvp`/`hdue` hypotheses record.) -/
theorem spec_C1_recurring_regeneration (now : String) (m : TodoManager)
    (i : Nat) (pre post : List TodoItem) (t : TodoItem)
    (hsplit : m.todos = pre ++ t :: post)
    (hpre : ∀ u ∈ pre, u.id ≠ i) (hid : t.id = i)
    (hincomp : t.completed = false)
    (hpat : t.recurring_pattern = "Daily" ∨ t.recurring_pattern = "Weekly" ∨
      t.recurring_pattern = "Monthly")
    (hvp : validPriority t.priority = true)
    (hdue : t.due_date = "" ∨ ∃ d, fromisoformat t.due_date = some d)
    (hinv : ∀ u ∈ m.todos, u.id < m.next_id) :
    ∃ m' nt, TodoManager.toggle_completion now m i = some (true, m') ∧
      m'.todos =
        (pre ++ { t with completed := true, updated_at := now } :: post)
          ++ [nt] ∧
      m'.next_id = m.next_id + 1 ∧
      nt.id = m.next_id ∧ (∀ u ∈ m.todos, u.id ≠ nt.id) ∧
      nt.completed = false ∧
      nt.title = t.title ∧ nt.description = t.description ∧
      nt.priority = t.priority ∧ nt.category = t.category ∧
      nt.recurring_pattern = t.recurring_pattern ∧
      (t.due_date = "" → nt.due_date = "") ∧
      (∀ d, fromisoformat t.due_date = some d →
        ((t.recurring_pattern = "Daily" →
            nt.due_date = formatDate (addDays d 1)) ∧
         (t.recurring_pattern = "Weekly" →
            nt.due_date = formatDate (addDays d 7)) ∧
         (t.recurring_pattern = "Monthly" →
            nt.due_date = formatDate (addDays d 30)))) := by
  have hfind : m.todos.find? (fun u => u.id == i) = some t := by
    rw [hsplit]; exact find?_eq_first post hpre hid
  obtain ⟨nd, hnd, hnd1, hnd2⟩ : ∃ nd,
      shiftDue t.due_date (patternOffset t.recurring_pattern) = some nd ∧
      (t.due_date = "" → nd = "") ∧
      (∀ d, fromisoformat t.due_date = some d →
        nd = formatDate (addDays d (patternOffset t.recurring_pattern))) := by
    rcases hdue with hdu | ⟨d, hdu⟩
    · refine ⟨"", ?_, fun _ => rfl, ?_⟩
      · simp [shiftDue, hdu]
      · intro d hd
        rw [hdu] at hd
        simp [fromisoformat] at hd
    · have hne : ¬t.due_date = "" := by
        intro hcon
        rw [hcon] at hdu
        simp [fromisoformat] at hdu
      refine ⟨formatDate (addDays d (patternOffset t.recurring_pattern)),
        ?_, fun hcon => absurd hcon hne, ?_⟩
      · simp [shiftDue, if_neg hne, hdu]
      · intro d' hd'
        rw [hdu] at hd'
        simp only [Option.some.injEq] at hd'
        rw [hd']
  have hrep : replaceFirst m.todos i
      { t with completed := !t.completed, updated_at := now } =
      pre ++ { t with completed := !t.completed, updated_at := now } :: post := by
    rw [hsplit]; exact replaceFirst_append post _ hpre hid
  have hcreate := create_recurring_eq now
    { m with todos := pre ++ { t with completed := !t.completed, updated_at := now } :: post }
    { t with completed := !t.completed, updated_at := now } hpat hnd
  refine ⟨TodoManager.save_todos (TodoManager.save_todos
      { m with
        todos := (pre ++ { t with completed := !t.completed, updated_at := now } :: post)
          ++ [TodoItem.init now m.next_id t.title t.description false none
            t.priority t.category nd t.recurring_pattern],
        next_id := m.next_id + 1 }),
    TodoItem.init now m.next_id t.title t.description false none
      t.priority t.category nd t.recurring_pattern,
    ?_, ?_, ?_, ?_, ?_, ?_, ?_, ?_, ?_, ?_, ?_, ?_, ?_⟩
  · simp only [TodoManager.toggle_completion, hfind]
    rw [hrep]
    have hcond : (!t.completed && (t.recurring_pattern != "")) = true := by
      rw [hincomp]
      rcases hpat with hp | hp | hp <;> rw [hp] <;> rfl
    simp only [hcond]
    rw [hcreate]
    rfl
  · simp [hincomp, TodoManager.save_todos]
  · rfl
  · rfl
  · intro u hu
    rw [init_id]
    exact Nat.ne_of_lt (hinv u hu)
  · rfl
  · rfl
  · rfl
  · simp only [TodoItem.init]
    rw [if_pos hvp]
  · rfl
  · rfl
  · intro hdu
    simp only [TodoItem.init]
    exact hnd1 hdu
  · intro d hd
    have hofs := hnd2 d hd
    refine ⟨?_, ?_, ?_⟩ <;> intro hp <;>
      simp only [TodoItem.init] <;>
      rw [hofs, hp] <;> rfl

/-- C1 witness: completing the `Daily` item due `2024-01-01` appends
exactly one fresh incomplete copy due `2024-01-02`. -/
theorem spec_C1_witness :
    ∃ m' nt, TodoManager.toggle_completion "T" c1_mgr 1 = some (true, m') ∧
      m'.todos =
        ([] ++ { c1_item with completed := true, updated_at := "T" } :: [])
          ++ [nt] ∧
      m'.next_id = c1_mgr.next_id + 1 ∧
      nt.id = c1_mgr.next_id ∧ (∀ u ∈ c1_mgr.todos, u.id ≠ nt.id) ∧
      nt.completed = false ∧
      nt.title = c1_item.title ∧ nt.description = c1_item.description ∧
      nt.priority = c1_item.priority ∧ nt.category = c1_item.category ∧
      nt.recurring_pattern = c1_item.recurring_pattern ∧
      (c1_item.due_date = "" → nt.due_date = "") ∧
      (∀ d, fromisoformat c1_item.due_date = some d →
        ((c1_item.recurring_pattern = "Daily" →
            nt.due_date = formatDate (addDays d 1)) ∧
         (c1_item.recurring_pattern = "Weekly" →
            nt.due_date = formatDate (addDays d 7)) ∧
         (c1_item.recurring_pattern = "Monthly" →
            nt.due_date = formatDate (addDays d 30)))) :=
  spec_C1_recurring_regeneration "T" c1_mgr 1 [] [] c1_item rfl (by simp)
    rfl rfl (Or.inl rfl) (by decide)
    (Or.inr ⟨⟨2024, 1, 1⟩, by decide⟩) (by decide)

/-- `update_todo`'s loop body returns `False` when the due date or the
recurring pattern is provided and invalid. -/
theorem applyValidatedTail_fail (t : TodoItem)
    (category? due_date? recurring? : Option String)
    (h : (∃ s, due_date? = some s ∧ validate_date_format s = false) ∨
      (∃ r, recurring? = some r ∧ validate_recurring_pattern r = false)) :
    (applyValidatedTail t category? due_date? recurring?).2 = false := by
  unfold applyValidatedTail
  rcases h with ⟨s, hs, hv⟩ | ⟨r, hr, hv⟩
  · subst hs
    cases category? <;> simp [hv]
  · subst hr
    cases category? <;> cases due_date? <;> simp only [] <;>
      (repeat' split) <;> simp_all [hv]

/-- `update_todo`'s loop body returns `False` when any provided
validated field is invalid. -/
theorem applyUpdates_fail (t : TodoItem)
    (title? description? priority? category? due_date? recurring? :
      Option String)
    (h : (∃ p, priority? = some p ∧ validPriority p = false) ∨
      (∃ s, due_date? = some s ∧ validate_date_format s = false) ∨
      (∃ r, recurring? = some r ∧ validate_recurring_pattern r = false)) :
    (applyUpdates t title? description? priority? category? due_date?
      recurring?).2 = false := by
  unfold applyUpdates
  rcases h with ⟨p, hp, hv⟩ | h
  · subst hp
    cases title? <;> cases description? <;> simp [hv]
  · cases priority? with
    | none =>
        cases title? <;> cases description? <;> simp only [] <;>
          exact applyValidatedTail_fail _ category? due_date? recurring? h
    | some p =>
        cases title? <;> cases description? <;> simp only [] <;> split <;>
          first
          | exact applyValidatedTail_fail _ category? due_date? recurring? h
          | rfl

/-- C3 counterexample: updating item 1 with a new title and an invalid
priority returns failure, yet the item's title has already been changed
in memory — the claim that no field of any existing item is modified is
false on the code. -/
theorem spec_C3_counterexample :
    (TodoManager.update_todo "T" c3_mgr 1 (some "X") none (some "Bogus")
      none none none).1 = false ∧
    (TodoManager.update_todo "T" c3_mgr 1 (some "X") none (some "Bogus")
      none none none).2.todos.map (fun t => t.title) = ["X", "b"] ∧
    c3_mgr.todos.map (fun t => t.title) = ["a", "b"] := by decide

/-- C3 amended: on a failed validation, `add_todo` changes nothing at
all; `update_todo` returns `False`, never rewrites the file, adds or
removes no item and leaves every *other* item untouched — but the
fields of the matched item assigned before the failing check remain
modified in memory (see the counterexample). -/
theorem spec_C3_validation_failure (now : String) (m : TodoManager)
    (title description priority category due_date rp : String) (i : Nat)
    (title? description? priority? category? due_date? recurring? :
      Option String)
    (hadd : validPriority priority = false ∨
      validate_date_format due_date = false ∨
      validate_recurring_pattern rp = false)
    (hupd : (∃ p, priority? = some p ∧ validPriority p = false) ∨
      (∃ s, due_date? = some s ∧ validate_date_format s = false) ∨
      (∃ r, recurring? = some r ∧ validate_recurring_pattern r = false)) :
    TodoManager.add_todo now m title description priority category
      due_date rp = (none, m) ∧
    (TodoManager.update_todo now m i title? description? priority?
      category? due_date? recurring?).1 = false ∧
    (TodoManager.update_todo now m i title? description? priority?
      category? due_date? recurring?).2.file = m.file ∧
    (TodoManager.update_todo now m i title? description? priority?
      category? due_date? recurring?).2.writes = m.writes ∧
    (TodoManager.update_todo now m i title? description? priority?
      category? due_date? recurring?).2.next_id = m.next_id ∧
    (TodoManager.update_todo now m i title? description? priority?
      category? due_date? recurring?).2.todos.length = m.todos.length ∧
    (∀ u ∈ m.todos, u.id ≠ i →
      u ∈ (TodoManager.update_todo now m i title? description? priority?
        category? due_date? recurring?).2.todos) := by
  refine ⟨add_todo_fail now m title description priority category
    due_date rp hadd, ?_⟩
  unfold TodoManager.update_todo
  cases hfind : m.todos.find? (fun t => t.id == i) with
  | none => exact ⟨rfl, rfl, rfl, rfl, rfl, fun u hu _ => hu⟩
  | some t =>
      have hfail := applyUpdates_fail t title? description? priority?
        category? due_date? recurring? hupd
      split
      · rename_i heq
        cases heq
      rename_i x t0 heq0
      cases heq0
      split
      · rename_i t1 heq
        refine ⟨rfl, rfl, rfl, rfl, ?_, ?_⟩
        · exact replaceFirst_length ..
        · intro u hu hne
          exact mem_replaceFirst_of_ne _ hu hne
      · rename_i t1 heq
        rw [heq] at hfail
        simp at hfail

/-- C3 witness for the amended theorem: updating item 1 of the
two-item store with an invalid priority fails, keeps the file, the
counter, the length, and item 2 intact. -/
theorem spec_C3_witness :
    TodoManager.add_todo "T" c3_mgr "t" "" "Bogus" "" "" "" =
      (none, c3_mgr) ∧
    (TodoManager.update_todo "T" c3_mgr 1 (some "X") none (some "Bogus")
      none none none).1 = false ∧
    (TodoManager.update_todo "T" c3_mgr 1 (some "X") none (some "Bogus")
      none none none).2.file = c3_mgr.file ∧
    (TodoManager.update_todo "T" c3_mgr 1 (some "X") none (some "Bogus")
      none none none).2.writes = c3_mgr.writes ∧
    (TodoManager.update_todo "T" c3_mgr 1 (some "X") none (some "Bogus")
      none none none).2.next_id = c3_mgr.next_id ∧
    (TodoManager.update_todo "T" c3_mgr 1 (some "X") none (some "Bogus")
      none none none).2.todos.length = c3_mgr.todos.length ∧
    (∀ u ∈ c3_mgr.todos, u.id ≠ 1 →
      u ∈ (TodoManager.update_todo "T" c3_mgr 1 (some "X") none
        (some "Bogus") none none none).2.todos) :=
  spec_C3_validation_failure "T" c3_mgr "t" "" "Bogus" "" "" "" 1
    (some "X") none (some "Bogus") none none none
    (Or.inl (by decide)) (Or.inl ⟨"Bogus", rfl, by decide⟩)

/-- Inversion of a successful `add_todo`: validations passed and the
created item and new state are explicit. -/
theorem add_todo_success_inv {now : String} {m : TodoManager}
    {title description priority category due_date rp : String}
    {t : TodoItem}
    (h : (TodoManager.add_todo now m title description priority category
      due_date rp).1 = some t) :
    t = TodoItem.init now m.next_id title description false none priority
      category due_date rp ∧
    TodoManager.add_todo now m title description priority category
      due_date rp =
    (some t, TodoManager.save_todos
      { m with todos := m.todos ++ [t], next_id := m.next_id + 1 }) := by
  by_cases h1 : validPriority priority = true
  · by_cases h2 : validate_date_format due_date = true
    · by_cases h3 : validate_recurring_pattern rp = true
      · have hs := add_todo_success now m title description priority
          category due_date rp h1 h2 h3
        rw [hs] at h
        simp only [Option.some.injEq] at h
        subst h
        exact ⟨rfl, hs⟩
      · rw [add_todo_fail now m title description priority category
          due_date rp (Or.inr (Or.inr (by simpa using h3)))] at h
        simp at h
    · rw [add_todo_fail now m title description priority category
        due_date rp (Or.inr (Or.inl (by simpa using h2)))] at h
      simp at h
  · rw [add_todo_fail now m title description priority category
      due_date rp (Or.inl (by simpa using h1))] at h
    simp at h

/-- C4 counterexample: starting from an empty store, add two items,
delete item 2, then add again: the new item receives id 3 from the
session counter, while the maximum existing id plus one is 2 — so a
successful add does *not* always assign `max existing id + 1`. -/
theorem spec_C4_counterexample :
    ((TodoManager.add_todo "t4" c4_m3 "c" "" "Medium" "" "" "").1.map
      (fun t => t.id) = some 3) ∧
    c4_m3.todos ≠ [] ∧
    maxId c4_m3.todos + 1 = 2 := by decide

/-- C4 amended: a successful add creates an item with
`completed = false` (status `pending` in the phase-1 in-memory variant)
and id equal to the manager's `next_id` counter — which equals
`max existing id + 1` (or 1) only at load time, and is incremented
after every creation — so the new id is fresh, and across any later
operations of the session a subsequent successful add assigns a
strictly larger id. -/
theorem spec_C4_fresh_increasing_ids (now : String) (m m2 : TodoManager)
    (title description priority category due_date rp : String)
    (t : TodoItem)
    (h : (TodoManager.add_todo now m title description priority category
      due_date rp).1 = some t)
    (hinv : Inv m)
    (hsteps : Relation.ReflTransGen Step
      (TodoManager.add_todo now m title description priority category
        due_date rp).2 m2)
    (now2 title2 description2 priority2 category2 due_date2 rp2 : String)
    (t2 : TodoItem)
    (h2 : (TodoManager.add_todo now2 m2 title2 description2 priority2
      category2 due_date2 rp2).1 = some t2) :
    t.completed = false ∧ t.id = m.next_id ∧
    (∀ u ∈ m.todos, u.id ≠ t.id) ∧
    (TodoManager.add_todo now m title description priority category
      due_date rp).2.next_id = m.next_id + 1 ∧
    t.id < t2.id ∧
    (∀ (nowc : String) (app : Core.TodoCore) (titlec descc : String)
      (tc : Core.Task), (Core.add_task nowc app titlec descc).1 = some tc →
      tc.status = "pending" ∧ tc.id = app.next_id ∧
      (Core.add_task nowc app titlec descc).2.next_id = app.next_id + 1) := by
  obtain ⟨ht, hs⟩ := add_todo_success_inv h
  obtain ⟨ht2, hs2⟩ := add_todo_success_inv h2
  have hinv' : Inv (TodoManager.add_todo now m title description priority
      category due_date rp).2 :=
    (step_inv hinv (Step.add now title description priority category
      due_date rp m)).1
  have hle := steps_next_id_le hinv' hsteps
  refine ⟨?_, ?_, ?_, ?_, ?_, ?_⟩
  · rw [ht]; rfl
  · rw [ht]; rfl
  · intro u hu
    rw [ht, init_id]
    exact Nat.ne_of_lt (hinv.2 u hu)
  · rw [hs]; rfl
  · have hnext : (TodoManager.add_todo now m title description priority
        category due_date rp).2.next_id = m.next_id + 1 := by rw [hs]; rfl
    rw [ht, init_id, ht2, init_id]
    calc m.next_id < m.next_id + 1 := Nat.lt_succ_self _
      _ = (TodoManager.add_todo now m title description priority category
            due_date rp).2.next_id := hnext.symm
      _ ≤ m2.next_id := hle.1
  · intro nowc app titlec descc tc hc
    unfold Core.add_task at hc ⊢
    by_cases htrim : titlec.trim = ""
    · rw [if_pos htrim] at hc
      simp at hc
    · rw [if_neg htrim] at hc ⊢
      simp only [Option.some.injEq] at hc
      subst hc
      exact ⟨rfl, rfl, rfl⟩

/-- C4 witness: in the session add/add after a fresh empty start, both
adds succeed, the first item is incomplete with the counter's id, and
the ids strictly increase. -/
theorem spec_C4_witness :
    ∃ t1 t2,
      (TodoManager.add_todo "t1" c4_m0 "a" "" "Medium" "" "" "").1 =
        some t1 ∧
      (TodoManager.add_todo "t2" c4_m1 "b" "" "Medium" "" "" "").1 =
        some t2 ∧
      t1.completed = false ∧ t1.id = c4_m0.next_id ∧ t1.id < t2.id := by
  have h1 : (TodoManager.add_todo "t1" c4_m0 "a" "" "Medium" "" "" "").1 =
      some (TodoItem.init "t1" c4_m0.next_id "a" "" false none "Medium" ""
        "" "") := by decide
  have h2 : (TodoManager.add_todo "t2" c4_m1 "b" "" "Medium" "" "" "").1 =
      some (TodoItem.init "t2" c4_m1.next_id "b" "" false none "Medium" ""
        "" "") := by decide
  have hmain := spec_C4_fresh_increasing_ids "t1" c4_m0 c4_m1 "a" ""
    "Medium" "" "" "" _ h1
    (reachable_inv ⟨"t0", FileState.missing, Relation.ReflTransGen.refl⟩)
    (Relation.ReflTransGen.refl) "t2" "b" "" "Medium" "" "" "" _ h2
  exact ⟨_, _, h1, h2, hmain.1, hmain.2.1, hmain.2.2.2.2.1⟩

/-- C5: on a web task route with mismatched authenticated and path
user ids, the handler answers 403 independently of the store (any two
stores give the identical response, and the store is untouched), so
task existence is not revealed; only with matching ids and a missing
task does it answer 404. -/
theorem spec_C5_ownership_before_existence (cu uid tid : Nat)
    (s1 s2 : List Web.Task) (hne : cu ≠ uid) :
    Web.read_task cu uid tid s1 =
      Web.HttpResult.error 403
        "Not authorized to access tasks for this user" ∧
    Web.read_task cu uid tid s1 = Web.read_task cu uid tid s2 ∧
    (Web.delete_existing_task cu uid tid s1).1 =
      Web.HttpResult.error 403
        "Not authorized to delete tasks for this user" ∧
    (Web.delete_existing_task cu uid tid s1).2 = s1 ∧
    (Web.delete_existing_task cu uid tid s1).1 =
      (Web.delete_existing_task cu uid tid s2).1 ∧
    (∀ s : List Web.Task, Web.get_task_by_id s tid uid = none →
      Web.read_task uid uid tid s =
        Web.HttpResult.error 404 "Task not found" ∧
      (Web.delete_existing_task uid uid tid s).1 =
        Web.HttpResult.error 404 "Task not found") := by
  refine ⟨?_, ?_, ?_, ?_, ?_, ?_⟩
  · unfold Web.read_task
    rw [if_pos hne]
  · unfold Web.read_task
    rw [if_pos hne, if_pos hne]
  · unfold Web.delete_existing_task
    rw [if_pos hne]
  · unfold Web.delete_existing_task
    rw [if_pos hne]
  · unfold Web.delete_existing_task
    rw [if_pos hne, if_pos hne]
  · intro s hs
    constructor
    · unfold Web.read_task
      rw [if_neg (by simp), hs]
    · unfold Web.delete_existing_task Web.delete_task
      rw [if_neg (by simp), hs]

/-- C5 witness: user 1 asking for user 2's task 5 gets 403 on the empty
store and on a store containing task 5, with identical responses. -/
theorem spec_C5_witness :
    Web.read_task 1 2 5 [] =
      Web.HttpResult.error 403
        "Not authorized to access tasks for this user" ∧
    Web.read_task 1 2 5 [] = Web.read_task 1 2 5 [c8_webtask] ∧
    (Web.delete_existing_task 1 2 5 []).1 =
      Web.HttpResult.error 403
        "Not authorized to delete tasks for this user" ∧
    (Web.delete_existing_task 1 2 5 []).2 = [] ∧
    (Web.delete_existing_task 1 2 5 []).1 =
      (Web.delete_existing_task 1 2 5 [c8_webtask]).1 ∧
    (∀ s : List Web.Task, Web.get_task_by_id s 5 2 = none →
      Web.read_task 2 2 5 s =
        Web.HttpResult.error 404 "Task not found" ∧
      (Web.delete_existing_task 2 2 5 s).1 =
        Web.HttpResult.error 404 "Task not found") :=
  spec_C5_ownership_before_existence 1 2 5 [] [c8_webtask] (by decide)

/-- C6: saving the collection and loading it back in a fresh session
reproduces the identical item list — all ten fields of every item. -/
theorem spec_C6_save_load_round_trip (now2 : String) (m : TodoManager)
    (h : ∀ t ∈ m.todos, validPriority t.priority = true ∧
      t.created_at ≠ "") :
    (TodoManager.init now2 (TodoManager.save_todos m).file).todos =
      m.todos := by
  unfold TodoManager.init
  rw [update_next_id_todos]
  simp only [TodoManager.load_todos, TodoManager.save_todos,
    from_dict_list_to_dict now2 h, update_next_id_todos]

/-- C6 witness: a well-formed item with every field populated survives
the save/load round trip unchanged. -/
theorem spec_C6_witness :
    (∀ t ∈ c6_mgr.todos, validPriority t.priority = true ∧
      t.created_at ≠ "") ∧
    (TodoManager.init "T2" (TodoManager.save_todos c6_mgr).file).todos =
      c6_mgr.todos :=
  ⟨by decide, spec_C6_save_load_round_trip "T2" c6_mgr (by decide)⟩

/-- C7: loading a corrupt file, or a parsed file in which some item
dictionary lacks `id` or `title`, yields the empty collection with
`next_id = 1` — the load returns normally with no recovery of the
other entries. -/
theorem spec_C7_malformed_file_empty (now : String) (m m2 : TodoManager)
    (data : List TodoDict) (d : TodoDict)
    (hm : m.file = FileState.corrupt)
    (h2 : m2.file = FileState.parsed data)
    (hd : d ∈ data) (hmiss : d.id = none ∨ d.title = none) :
    (TodoManager.load_todos now m).todos = [] ∧
    (TodoManager.load_todos now m).next_id = 1 ∧
    (TodoManager.load_todos now m2).todos = [] ∧
    (TodoManager.load_todos now m2).next_id = 1 := by
  have hfl : from_dict_list now data = none :=
    from_dict_list_none hd (from_dict_missing hmiss)
  refine ⟨?_, ?_, ?_, ?_⟩ <;>
    simp [TodoManager.load_todos, hm, h2, hfl]

/-- C7 witness: a corrupt file over a one-item memory state, and a
parsed file with a dictionary missing `id`, both load as the empty
collection with counter 1. -/
theorem spec_C7_witness :
    (TodoManager.load_todos "T" c7_mgr1).todos = [] ∧
    (TodoManager.load_todos "T" c7_mgr1).next_id = 1 ∧
    (TodoManager.load_todos "T" c7_mgr2).todos = [] ∧
    (TodoManager.load_todos "T" c7_mgr2).next_id = 1 :=
  spec_C7_malformed_file_empty "T" c7_mgr1 c7_mgr2 [c7_badDict] c7_badDict
    rfl rfl (by decide) (Or.inl rfl)

/-- C8: deleting an id that no stored item carries returns `False` in
both CLI variants without touching the collection (and without a file
write in the JSON variant), and in the web variant the service returns
`False`, the route answers 404, and the store is unchanged. -/
theorem spec_C8_delete_missing (m : TodoManager) (i : Nat)
    (hm : ∀ t ∈ m.todos, t.id ≠ i)
    (app : Core.TodoCore) (happ : ∀ t ∈ app.tasks, t.id ≠ i)
    (store : List Web.Task) (uid : Nat)
    (hweb : Web.get_task_by_id store i uid = none) :
    TodoManager.remove_todo m i = (false, m) ∧
    Core.delete_task app i = (false, app) ∧
    Web.delete_task store i uid = (false, store) ∧
    Web.delete_existing_task uid uid i store =
      (Web.HttpResult.error 404 "Task not found", store) := by
  have hany : (m.todos.any fun t => t.id == i) = false := by
    rw [List.any_eq_false]
    intro t ht
    simpa using hm t ht
  have hany2 : (app.tasks.any fun t => t.id == i) = false := by
    rw [List.any_eq_false]
    intro t ht
    simpa using happ t ht
  refine ⟨?_, ?_, ?_, ?_⟩
  · unfold TodoManager.remove_todo
    simp [hany]
  · unfold Core.delete_task
    simp [hany2]
  · unfold Web.delete_task
    rw [hweb]
  · unfold Web.delete_existing_task Web.delete_task
    rw [if_neg (by simp), hweb]

/-- C8 witness: deleting id 5 from one-item CLI stores, and user 1
deleting task 5 (owned by user 2) from the web store, all fail and
leave everything unchanged. -/
theorem spec_C8_witness :
    TodoManager.remove_todo c8_mgr 5 = (false, c8_mgr) ∧
    Core.delete_task c8_core 5 = (false, c8_core) ∧
    Web.delete_task [c8_webtask] 5 1 = (false, [c8_webtask]) ∧
    Web.delete_existing_task 1 1 5 [c8_webtask] =
      (Web.HttpResult.error 404 "Task not found", [c8_webtask]) :=
  spec_C8_delete_missing c8_mgr 5 (by decide) c8_core (by decide)
    [c8_webtask] 1 (by decide)

/-- C9: in every reachable manager state all stored priorities are
`High`, `Medium` or `Low`; the `TodoItem` constructor replaces any
other value by `Medium`, and `add_todo`/`update_todo` reject an
invalid provided priority. -/
theorem spec_C9_priority_invariant (m : TodoManager) (h : Reachable m) :
    (∀ t ∈ m.todos, t.priority = "High" ∨ t.priority = "Medium" ∨
      t.priority = "Low") ∧
    (∀ (now : String) (id : Nat) (title description : String)
      (completed : Bool) (created_at : Option String)
      (priority category due_date rp : String),
      validPriority priority = false →
      (TodoItem.init now id title description completed created_at
        priority category due_date rp).priority = "Medium") ∧
    (∀ (now title description priority category due_date rp : String),
      validPriority priority = false →
      (TodoManager.add_todo now m title description priority category
        due_date rp).1 = none) ∧
    (∀ (now : String) (i : Nat)
      (t? d? c? dd? r? : Option String) (p : String),
      validPriority p = false →
      (TodoManager.update_todo now m i t? d? (some p) c? dd? r?).1 =
        false) := by
  refine ⟨?_, ?_, ?_, ?_⟩
  · intro t ht
    have hv := (reachable_inv h).1 t ht
    have hv' : (t.priority = "High" ∨ t.priority = "Medium") ∨
        t.priority = "Low" := by simpa [validPriority] using hv
    tauto
  · intro now id title description completed created_at priority category
      due_date rp hp
    simp [TodoItem.init, hp]
  · intro now title description priority category due_date rp hp
    rw [add_todo_fail now m title description priority category due_date
      rp (Or.inl hp)]
  · intro now i t? d? c? dd? r? p hp
    unfold TodoManager.update_todo
    cases hfind : m.todos.find? (fun t => t.id == i) with
    | none => rfl
    | some t =>
        have hfail := applyUpdates_fail t t? d? (some p) c? dd? r?
          (Or.inl ⟨p, rfl, hp⟩)
        split
        · rename_i heq
          cases heq
        rename_i x t0 heq0
        cases heq0
        split
        · rename_i t1 heq
          rfl
        · rename_i t1 heq
          rw [heq] at hfail
          simp at hfail

/-- C9 witness: the state reached by adding one `High` item to a fresh
session satisfies all four parts of the priority claim. -/
theorem spec_C9_witness :
    (∀ t ∈ c9_mgr.todos, t.priority = "High" ∨ t.priority = "Medium" ∨
      t.priority = "Low") ∧
    (∀ (now : String) (id : Nat) (title description : String)
      (completed : Bool) (created_at : Option String)
      (priority category due_date rp : String),
      validPriority priority = false →
      (TodoItem.init now id title description completed created_at
        priority category due_date rp).priority = "Medium") ∧
    (∀ (now title description priority category due_date rp : String),
      validPriority priority = false →
      (TodoManager.add_todo now c9_mgr title description priority category
        due_date rp).1 = none) ∧
    (∀ (now : String) (i : Nat)
      (t? d? c? dd? r? : Option String) (p : String),
      validPriority p = false →
      (TodoManager.update_todo now c9_mgr i t? d? (some p) c? dd? r?).1 =
        false) :=
  spec_C9_priority_invariant c9_mgr ⟨"t0", FileState.missing,
    Relation.ReflTransGen.tail Relation.ReflTransGen.refl
      (Step.add "t1" "a" "" "High" "" "" ""
        (TodoManager.init "t0" FileState.missing))⟩

/-- C10 counterexample: with two incomplete items stored oldest-first,
listing with `show_completed = false` leaves the stored list in its
old order, which is *not* the requested newest-created-first order —
the claim that every `list_todos` call reorders the stored list to the
requested sort order is false on the code. -/
theorem spec_C10_counterexample :
    (TodoManager.list_todos c10_mgr false false).2.todos =
      c10_mgr.todos ∧
    ¬ (TodoManager.list_todos c10_mgr false false).2.todos.Pairwise
      (fun a b => createdDescLe a b = true) := by
  refine ⟨rfl, ?_⟩
  intro hp
  have h12 := List.rel_of_pairwise_cons hp (List.mem_singleton.mpr rfl)
  revert h12
  decide

/-- C10 amended: `list_todos` never adds, removes, or edits an item and
never touches the file or the id counter; with `show_completed = true`
the stored list itself is sorted in place (a permutation in the
requested order, and this order persists), while with
`show_completed = false` only a filtered copy is sorted and the
manager's state is completely unchanged. -/
theorem spec_C10_list_sorts_in_place (m : TodoManager) (sp : Bool) :
    ((TodoManager.list_todos m true sp).2.todos.Perm m.todos ∧
     (TodoManager.list_todos m true sp).2.todos =
       (TodoManager.list_todos m true sp).1 ∧
     (TodoManager.list_todos m true sp).2.todos.Pairwise
       (fun a b => (if sp then priorityDescLe else createdDescLe) a b
         = true) ∧
     (TodoManager.list_todos m true sp).2.next_id = m.next_id ∧
     (TodoManager.list_todos m true sp).2.file = m.file ∧
     (TodoManager.list_todos m true sp).2.writes = m.writes) ∧
    ((TodoManager.list_todos m false sp).2 = m ∧
     (TodoManager.list_todos m false sp).1.Perm
       (m.todos.filter (fun t => !t.completed)) ∧
     (TodoManager.list_todos m false sp).1.Pairwise
       (fun a b => (if sp then priorityDescLe else createdDescLe) a b
         = true)) := by
  rw [list_todos_true, list_todos_false]
  exact ⟨⟨sortTodos_perm m.todos sp, rfl, sortTodos_pairwise m.todos sp,
    rfl, rfl, rfl⟩,
    rfl, sortTodos_perm _ sp, sortTodos_pairwise _ sp⟩

end Hackathon
